import Mathlib

/-!
Shallow embedding of the rust_scope oscilloscope plugin
(src/lib.rs, src/oscilloscope.rs, src/params.rs).

f32 values are modelled as exact rationals (ℚ); `as usize` casts of
nonnegative floats are modelled by `Int.floor` followed by `Int.toNat`
(Rust truncates toward zero and saturates negatives at 0).  Operations
that would panic in Rust (index out of bounds, `%` by zero) are modelled
by `Option`, with `none` standing for the panic.
-/

namespace Scope

/-- Models the constant MAX_SAMPLE_RATE : f32 = 192_000.0 from src/lib.rs. -/
def MAX_SAMPLE_RATE : ℚ := 192000

/-- Models MAX_BUFFER_SIZE : usize = (MAX_SAMPLE_RATE * 0.1) as usize from src/lib.rs. -/
def MAX_BUFFER_SIZE : ℕ := (⌊MAX_SAMPLE_RATE * (1 / 10)⌋).toNat

theorem MAX_BUFFER_SIZE_eq : MAX_BUFFER_SIZE = 19200 := by
  norm_num [MAX_BUFFER_SIZE, MAX_SAMPLE_RATE]
  rfl

/-- The plugin state shared between the audio thread and the editor:
the fixed-capacity slot array (modelled as a total function from index
to stored value), the producer cursor `write_pos`, the logical size
`buffer_size`, and the stored sample rate (an AtomicU32 in the code).
The slot element type is a parameter so the same state can hold exact
rationals or the NaN-aware value model used for the down-mix claims. -/
structure ScopeState (α : Type) where
  buffer : ℕ → α
  writePos : ℕ
  bufferSize : ℕ
  sampleRate : ℕ

/-- Models MyPlugin::initialize (src/lib.rs lines 73-91), the
configure(sample_rate) operation of the spec: reject rates above
MAX_SAMPLE_RATE (returning false and leaving the state untouched),
otherwise set buffer_size = (sample_rate * 0.1) as usize, store the
sample rate, and reset write_pos to 0. -/
def configure {α : Type} (st : ScopeState α) (sampleRate : ℚ) : Bool × ScopeState α :=
  if MAX_SAMPLE_RATE < sampleRate then
    (false, st)
  else
    (true,
      { st with
        bufferSize := (⌊sampleRate * (1 / 10)⌋).toNat
        sampleRate := (⌊sampleRate⌋).toNat
        writePos := 0 })

/-- Models the per-sample store in MyPlugin::process (src/lib.rs lines
110-116): write the mixed sample at buffer[write_pos], then advance
write_pos = (write_pos + 1) % buffer_size.  `none` models a Rust panic:
either the slot index is outside the physical array, or buffer_size is 0
and the `%` is a division by zero. -/
def push {α : Type} (st : ScopeState α) (v : α) : Option (ScopeState α) :=
  if st.writePos < MAX_BUFFER_SIZE then
    if st.bufferSize = 0 then
      none
    else
      some
        { st with
          buffer := Function.update st.buffer st.writePos v
          writePos := (st.writePos + 1) % st.bufferSize }
  else
    none

/-- Iterated push: the effect of processing a sequence of already
down-mixed samples. -/
def pushAll {α : Type} : ScopeState α → List α → Option (ScopeState α)
  | st, [] => some st
  | st, v :: rest => (push st v).bind fun st2 => pushAll st2 rest

/-- Minimal model of IEEE f32 values as needed by the down-mix stage:
exact finite rationals, the two infinities, and NaN.  f32 arithmetic on
these operands never traps, so division by zero yields an infinity and
0 * infinity yields NaN. -/
inductive RVal : Type
  | fin (q : ℚ)
  | posInf
  | negInf
  | nan
  deriving DecidableEq

/-- IEEE multiplication on the RVal model. -/
def rmul : RVal → RVal → RVal
  | .fin a, .fin b => .fin (a * b)
  | .fin a, .posInf => if a = 0 then .nan else if 0 < a then .posInf else .negInf
  | .fin a, .negInf => if a = 0 then .nan else if 0 < a then .negInf else .posInf
  | .posInf, .fin b => if b = 0 then .nan else if 0 < b then .posInf else .negInf
  | .negInf, .fin b => if b = 0 then .nan else if 0 < b then .negInf else .posInf
  | .posInf, .posInf => .posInf
  | .posInf, .negInf => .negInf
  | .negInf, .posInf => .negInf
  | .negInf, .negInf => .posInf
  | .nan, _ => .nan
  | _, .nan => .nan

/-- Models division_factor = 1.0 / (channel_count as f32) from
MyPlugin::process (src/lib.rs line 101): for channel_count = 0 the f32
quotient 1.0 / 0.0 is +infinity, not a trap. -/
def divisionFactor (channelCount : ℕ) : RVal :=
  if channelCount = 0 then .posInf else .fin (1 / channelCount)

/-- Models the per-frame down-mix of MyPlugin::process (src/lib.rs lines
103-109): sum the channel sample values of the frame, then multiply by
division_factor. -/
def mixFrame (channelCount : ℕ) (frame : List ℚ) : RVal :=
  rmul (.fin frame.sum) (divisionFactor channelCount)

/-- Models the frame loop of MyPlugin::process (src/lib.rs lines
99-116): for each frame, down-mix it and push the result into the
history buffer.  A frame carries one sample value per channel, and
channel_count comes from buffer.channels(), shared by all frames. -/
def processFrames (channelCount : ℕ) : List (List ℚ) → ScopeState RVal → Option (ScopeState RVal)
  | [], st => some st
  | f :: rest, st => (push st (mixFrame channelCount f)).bind fun st2 =>
      processFrames channelCount rest st2

/-- Models the samples_to_display computation of OscilloscopeWidget::ui
(src/oscilloscope.rs lines 91-92, identically src/lib.rs lines 179-181):
(sample_rate * timebase / 1000.0) as usize, clamped by .min(buffer_size). -/
def samplesToDisplay (sampleRate timebase : ℚ) (bufferSize : ℕ) : ℕ :=
  min ((⌊sampleRate * timebase / 1000⌋).toNat) bufferSize

/-- Models the buffer_index computation of OscilloscopeWidget::ui
(src/oscilloscope.rs lines 98-100, identically src/lib.rs lines
188-190): (write_pos + i * samples_to_display / display_width) % buffer_size,
all in usize arithmetic (so / is floor division). -/
def sourceIndex (writePos i samplesToDisp displayWidth bufferSize : ℕ) : ℕ :=
  (writePos + i * samplesToDisp / displayWidth) % bufferSize

/-- Models the point construction of OscilloscopeWidget::ui
(src/oscilloscope.rs lines 87-107, identically src/lib.rs lines
174-197): when buffer_size > 1, one point per display column i in
[0, display_width), at x = rect.left() + i and
y = rect.center().y - sample * rect.height() * 0.4 * vertical_scale,
where sample is the buffer value at the computed source index; when
buffer_size <= 1 no points are produced at all. -/
def samplePoints (buffer : ℕ → ℚ) (bufferSize writePos : ℕ)
    (sampleRate timebase verticalScale : ℚ) (displayWidth : ℕ)
    (rectLeft rectCenterY rectHeight : ℚ) : List (ℚ × ℚ) :=
  if 1 < bufferSize then
    (List.range displayWidth).map fun i =>
      let s := buffer (sourceIndex writePos i
        (samplesToDisplay sampleRate timebase bufferSize) displayWidth bufferSize)
      (rectLeft + i, rectCenterY - s * rectHeight * (2 / 5) * verticalScale)
  else []

/-- Models timebase_delta of the drag handler (src/oscilloscope.rs lines
154-157, identically src/lib.rs lines 245-249):
(horizontal_movement / window_width) * 99.0 * timebase_sensitivity with
timebase_sensitivity = 2.0. -/
def timebaseDelta (horizontalMovement windowWidth : ℚ) : ℚ :=
  horizontalMovement / windowWidth * 99 * 2

/-- Models new_timebase (src/oscilloscope.rs line 158, identically
src/lib.rs lines 250-251): (start_timebase + timebase_delta).clamp(1.0, 100.0),
the value handed to the timebase change callback. -/
def newTimebase (startTimebase horizontalMovement windowWidth : ℚ) : ℚ :=
  min (max (startTimebase + timebaseDelta horizontalMovement windowWidth) 1) 100

/-- Models scale_delta of the drag handler (src/oscilloscope.rs lines
164-167, identically src/lib.rs lines 255-259):
(vertical_movement / window_height) * 9.5 * scale_sensitivity with
scale_sensitivity = 1.0, where vertical_movement = start_y - pointer_y
(the inverted sign convention: up = more scale). -/
def scaleDelta (verticalMovement windowHeight : ℚ) : ℚ :=
  verticalMovement / windowHeight * (19 / 2) * 1

/-- Models new_scale (src/oscilloscope.rs line 168, identically
src/lib.rs lines 260-261): (start_scale + scale_delta).clamp(0.5, 10.0),
the value handed to the scale change callback. -/
def newScale (startScale verticalMovement windowHeight : ℚ) : ℚ :=
  min (max (startScale + scaleDelta verticalMovement windowHeight) (1 / 2)) 10

/-- A concrete default state for counterexamples and witnesses, matching
MyPlugin::default (src/lib.rs lines 29-40): zeroed buffer, write_pos 0,
buffer_size 4410, sample rate 44100. -/
def st0 : ScopeState ℚ :=
  { buffer := fun _ => 0, writePos := 0, bufferSize := 4410, sampleRate := 44100 }

/-- The default state with slots in the NaN-aware value model. -/
def st0R : ScopeState RVal :=
  { buffer := fun _ => .fin 0, writePos := 0, bufferSize := 4410, sampleRate := 44100 }

/-- C5 counterexample: at sample_rate 44100 and timebase 17 ms the widget
computes (44100 * 17 / 1000.0) as usize = 749 (truncation of 749.7),
while the claimed formula min(logical_size, round(...)) gives 750. -/
theorem c5_counterexample :
    samplesToDisplay 44100 17 19200 = 749 ∧
    (749 : ℕ) ≠ min 19200 ((round ((44100 : ℚ) * 17 / 1000)).toNat) := by
  constructor
  · norm_num [samplesToDisplay]
    rfl
  · norm_num [round_eq]
    decide

/-- C5 (amended): samples_to_display = min(logical_size,
floor(sample_rate * time_window_ms / 1000)) — the cast truncates rather
than rounds — and in particular samples_to_display is never more than
logical_size. -/
theorem c5_samples_to_display_clamped (sampleRate timebase : ℚ) (bufferSize : ℕ) :
    samplesToDisplay sampleRate timebase bufferSize =
      min bufferSize ((⌊sampleRate * timebase / 1000⌋).toNat) ∧
    samplesToDisplay sampleRate timebase bufferSize ≤ bufferSize :=
  ⟨min_comm _ _, min_le_right _ _⟩

/-- C7: whenever logical_size is at most 1 or the draw region has zero
width, the sampler produces the empty point sequence (and in particular
does not fail). -/
theorem c7_degenerate_empty (buffer : ℕ → ℚ) (bufferSize writePos : ℕ)
    (sampleRate timebase verticalScale : ℚ) (displayWidth : ℕ)
    (rectLeft rectCenterY rectHeight : ℚ)
    (hdeg : bufferSize ≤ 1 ∨ displayWidth = 0) :
    samplePoints buffer bufferSize writePos sampleRate timebase verticalScale
      displayWidth rectLeft rectCenterY rectHeight = [] := by
  rcases hdeg with h | h
  · rw [samplePoints, if_neg (by omega)]
  · subst h
    rw [samplePoints]
    split <;> simp

/-- Witness for C7 at a concrete unconfigured buffer (logical_size 1). -/
theorem c7_witness :
    samplePoints (fun _ => (0 : ℚ)) 1 0 44100 10 1 100 0 0 100 = [] :=
  c7_degenerate_empty (fun _ => 0) 1 0 44100 10 1 100 0 0 100 (Or.inl (by norm_num))

/-- C8: on the timebase axis (range [1, 100]) the published value is
clamp(start_value + timebase_delta, 1, 100); with start value 50, a drag
whose unclamped value is 150 publishes exactly 100, and a drag whose
unclamped value falls below the range publishes exactly 1. -/
theorem c8_timebase_drag_clamp (startTimebase horizontalMovement windowWidth : ℚ) :
    (startTimebase = 50 →
      startTimebase + timebaseDelta horizontalMovement windowWidth = 150 →
      newTimebase startTimebase horizontalMovement windowWidth = 100) ∧
    (startTimebase = 50 →
      startTimebase + timebaseDelta horizontalMovement windowWidth < 1 →
      newTimebase startTimebase horizontalMovement windowWidth = 1) ∧
    newTimebase startTimebase horizontalMovement windowWidth =
      min (max (startTimebase + timebaseDelta horizontalMovement windowWidth) 1) 100 := by
  refine ⟨fun _ h150 => ?_, fun _ hlow => ?_, rfl⟩
  · rw [newTimebase, h150]
    norm_num
  · rw [newTimebase, max_eq_right hlow.le]
    norm_num

/-- Witness for C8: start 50, pointer moved 100 px right in a 198 px
region; the unclamped value is 150 and the published value is 100. -/
theorem c8_witness : newTimebase 50 100 198 = 100 :=
  (c8_timebase_drag_clamp 50 100 198).1 rfl (by norm_num [timebaseDelta])

/-- C9: under the inverted vertical sign convention, an upward pointer
movement (pointer y strictly below the start y in screen coordinates,
i.e. pointer_y < start_y) never decreases the published vertical scale
relative to the captured start value, for any start value in [0.5, 10]
and any positive region height. -/
theorem c9_upward_drag_monotone (startScale startY pointerY windowHeight : ℚ)
    (_hlo : 1 / 2 ≤ startScale) (hhi : startScale ≤ 10)
    (hh : 0 < windowHeight) (hup : pointerY < startY) :
    startScale ≤ newScale startScale (startY - pointerY) windowHeight := by
  have hmove : 0 < startY - pointerY := by linarith
  have hdiv : 0 < (startY - pointerY) / windowHeight := div_pos hmove hh
  have hdelta : 0 ≤ scaleDelta (startY - pointerY) windowHeight := by
    rw [scaleDelta]
    nlinarith
  exact le_min (le_trans (by linarith) (le_max_left _ _)) hhi

/-- Witness for C9: start scale 1, pointer moved from y = 10 up to
y = 5 in a 100 px region; the new scale is at least the start scale. -/
theorem c9_witness : (1 : ℚ) ≤ newScale 1 (10 - 5) 100 :=
  c9_upward_drag_monotone 1 10 5 100 (by norm_num) (by norm_num) (by norm_num)
    (by norm_num)

/-- C2 counterexample: with a buffer holding 1.0 everywhere,
logical_size 2, write cursor 0, sample rate 1000, timebase 2 ms, scale
1, one display column, rect left 0, center y 0 and height 10, the
single produced point is (0, -4) — the code scales by height * 0.4 —
whereas the claimed formula center_y - sample * (height * 0.5) * scale
gives -5. -/
theorem c2_counterexample :
    samplePoints (fun _ => (1 : ℚ)) 2 0 1000 2 1 1 0 0 10 = [(0, -4)] ∧
    ((-4 : ℚ) ≠ 0 - 1 * (10 * (1 / 2)) * 1) := by
  constructor
  · rw [samplePoints, if_pos (by norm_num)]
    norm_num [sourceIndex, samplesToDisplay, show List.range 1 = [0] from rfl]
  · norm_num

/-- C2 (amended): whenever points are produced (logical_size > 1), the
point for display column i is (rect_left + i,
center_y - sample * height * 0.4 * vertical_scale) where sample is the
buffer value at the computed source index — the vertical factor is 0.4
of the full height (80 percent of half the height), and no clamping of
y to the draw rect is performed at this layer. -/
theorem c2_vertical_placement (buffer : ℕ → ℚ) (bufferSize writePos : ℕ)
    (sampleRate timebase verticalScale : ℚ) (displayWidth : ℕ)
    (rectLeft rectCenterY rectHeight : ℚ) (i : ℕ)
    (hbs : 1 < bufferSize) (hi : i < displayWidth) :
    (samplePoints buffer bufferSize writePos sampleRate timebase verticalScale
        displayWidth rectLeft rectCenterY rectHeight)[i]? =
      some (rectLeft + i,
        rectCenterY -
          buffer (sourceIndex writePos i
            (samplesToDisplay sampleRate timebase bufferSize) displayWidth bufferSize)
            * rectHeight * (2 / 5) * verticalScale) := by
  rw [samplePoints, if_pos hbs, List.getElem?_map, List.getElem?_range hi]
  rfl

/-- Witness for C2 (amended) at the concrete counterexample inputs. -/
theorem c2_witness :
    (samplePoints (fun _ => (1 : ℚ)) 2 0 1000 2 1 1 0 0 10)[0]? =
      some ((0 : ℚ) + (0 : ℕ),
        0 - (fun _ => (1 : ℚ)) (sourceIndex 0 0 (samplesToDisplay 1000 2 2) 1 2)
          * 10 * (2 / 5) * 1) :=
  c2_vertical_placement (fun _ => 1) 2 0 1000 2 1 1 0 0 10 0 (by norm_num)
    (by norm_num)

/-- C6: for display column i with display_width at least 1 and
logical_size at least 2, the sampler reads the buffer at
(write_cursor + floor(i * samples_to_display / display_width)) mod
logical_size — the usize division is floor division — and that index is
strictly less than logical_size. -/
theorem c6_source_index_in_bounds (buffer : ℕ → ℚ) (bufferSize writePos : ℕ)
    (sampleRate timebase verticalScale : ℚ) (displayWidth : ℕ)
    (rectLeft rectCenterY rectHeight : ℚ) (i : ℕ)
    (hbs : 2 ≤ bufferSize) (_hdw : 1 ≤ displayWidth) (hi : i < displayWidth) :
    sourceIndex writePos i (samplesToDisplay sampleRate timebase bufferSize)
        displayWidth bufferSize =
      (writePos + i * samplesToDisplay sampleRate timebase bufferSize / displayWidth)
        % bufferSize ∧
    i * samplesToDisplay sampleRate timebase bufferSize / displayWidth =
      Nat.floor ((i * samplesToDisplay sampleRate timebase bufferSize : ℚ) / displayWidth) ∧
    sourceIndex writePos i (samplesToDisplay sampleRate timebase bufferSize)
        displayWidth bufferSize < bufferSize ∧
    ((samplePoints buffer bufferSize writePos sampleRate timebase verticalScale
        displayWidth rectLeft rectCenterY rectHeight)[i]?).map Prod.snd =
      some (rectCenterY -
        buffer (sourceIndex writePos i
          (samplesToDisplay sampleRate timebase bufferSize) displayWidth bufferSize)
          * rectHeight * (2 / 5) * verticalScale) := by
  refine ⟨rfl, ?_, ?_, ?_⟩
  · rw [← Nat.cast_mul, Nat.floor_div_eq_div]
  · exact Nat.mod_lt _ (by omega)
  · rw [samplePoints, if_pos (by omega), List.getElem?_map, List.getElem?_range hi]
    rfl

/-- Witness for C6 at concrete inputs: column 0 of a width-1 region over
a size-2 buffer. -/
theorem c6_witness :
    sourceIndex 0 0 (samplesToDisplay 1000 2 2) 1 2 =
      (0 + 0 * samplesToDisplay 1000 2 2 / 1) % 2 ∧
    0 * samplesToDisplay 1000 2 2 / 1 =
      Nat.floor ((0 * samplesToDisplay 1000 2 2 : ℚ) / 1) ∧
    sourceIndex 0 0 (samplesToDisplay 1000 2 2) 1 2 < 2 ∧
    ((samplePoints (fun _ => (1 : ℚ)) 2 0 1000 2 1 1 0 0 10)[0]?).map Prod.snd =
      some (0 - (fun _ => (1 : ℚ)) (sourceIndex 0 0 (samplesToDisplay 1000 2 2) 1 2)
        * 10 * (2 / 5) * 1) :=
  c6_source_index_in_bounds (fun _ => 1) 2 0 1000 2 1 1 0 0 10 0 (by norm_num)
    (by norm_num) (by norm_num)

/-- C1 counterexample: at sample_rate 15 Hz (accepted, being below the
maximum), the code computes buffer_size = (15 * 0.1) as usize = 1
(truncation of 1.5), while the claimed formula
min(capacity, round(sample_rate * 0.1)) gives round(1.5) = 2. -/
theorem c1_counterexample :
    (configure st0 15).2.bufferSize = 1 ∧
    (1 : ℕ) ≠ min MAX_BUFFER_SIZE ((round ((15 : ℚ) * (1 / 10))).toNat) := by
  constructor
  · rw [configure, if_neg (by norm_num [MAX_SAMPLE_RATE])]
    show (⌊(15 : ℚ) * (1 / 10)⌋).toNat = 1
    norm_num
  · rw [MAX_BUFFER_SIZE_eq]
    norm_num [round_eq]
    decide

/-- C1 (amended): configure(sample_rate) rejects rates above the maximum
(192000), returning false and leaving the state untouched; otherwise it
succeeds, sets logical_size = min(capacity, floor(sample_rate * 0.1))
(the cast truncates, and the floor never exceeds the capacity because
the rate was accepted) and resets write_cursor to 0. -/
theorem c1_configure_contract (st : ScopeState ℚ) (sampleRate : ℚ) :
    (MAX_SAMPLE_RATE < sampleRate → configure st sampleRate = (false, st)) ∧
    (sampleRate ≤ MAX_SAMPLE_RATE →
      (configure st sampleRate).1 = true ∧
      (configure st sampleRate).2.bufferSize =
        min MAX_BUFFER_SIZE ((⌊sampleRate * (1 / 10)⌋).toNat) ∧
      (configure st sampleRate).2.writePos = 0) := by
  constructor
  · intro h
    rw [configure, if_pos h]
  · intro h
    rw [configure, if_neg (not_lt.mpr h)]
    refine ⟨rfl, ?_, rfl⟩
    have hfloor : ⌊sampleRate * (1 / 10)⌋ ≤ (19200 : ℤ) := by
      have : sampleRate * (1 / 10) ≤ 19200 := by
        rw [MAX_SAMPLE_RATE] at h
        linarith
      exact le_trans (Int.floor_le_floor this) (by norm_num)
    have htn : (⌊sampleRate * (1 / 10)⌋).toNat ≤ MAX_BUFFER_SIZE := by
      rw [MAX_BUFFER_SIZE_eq]
      omega
    exact (min_eq_right htn).symm

/-- Witness for C1 (amended) at the default 44.1 kHz rate. -/
theorem c1_witness :
    (configure st0 44100).1 = true ∧
    (configure st0 44100).2.bufferSize =
      min MAX_BUFFER_SIZE ((⌊(44100 : ℚ) * (1 / 10)⌋).toNat) ∧
    (configure st0 44100).2.writePos = 0 :=
  (c1_configure_contract st0 44100).2 (by norm_num [MAX_SAMPLE_RATE])

/-- C10: the producer's cursor advance is well-defined exactly under the
precondition logical_size >= 1: a push from a state with
write_pos < logical_size <= capacity stays in bounds of the physical
array and preserves write_pos < logical_size, while a push with
logical_size = 0 is a division by zero (a panic, modelled as none); and
configure accepts every nonnegative rate up to the maximum — including
rates below 10 Hz, for which it sets logical_size = 0 — so the
precondition is not enforced by configuration. -/
theorem c10_push_precondition_unenforced :
    (∀ (st : ScopeState ℚ) (v : ℚ), st.writePos < st.bufferSize →
      st.bufferSize ≤ MAX_BUFFER_SIZE →
      st.writePos < MAX_BUFFER_SIZE ∧
      ∃ st', push st v = some st' ∧ st'.bufferSize = st.bufferSize ∧
        st'.writePos < st'.bufferSize) ∧
    (∀ (st : ScopeState ℚ) (v : ℚ), st.bufferSize = 0 →
      st.writePos < MAX_BUFFER_SIZE → push st v = none) ∧
    (∀ (st : ScopeState ℚ) (sampleRate : ℚ), 0 ≤ sampleRate →
      sampleRate ≤ MAX_SAMPLE_RATE → (configure st sampleRate).1 = true) ∧
    (∀ (st : ScopeState ℚ) (sampleRate : ℚ), 0 ≤ sampleRate → sampleRate < 10 →
      (configure st sampleRate).2.bufferSize = 0) := by
  refine ⟨?_, ?_, ?_, ?_⟩
  · intro st v hlt hcap
    have hmax : st.writePos < MAX_BUFFER_SIZE := lt_of_lt_of_le hlt hcap
    refine ⟨hmax, ?_⟩
    rw [push, if_pos hmax, if_neg (by omega)]
    exact ⟨_, rfl, rfl, Nat.mod_lt _ (by omega)⟩
  · intro st v hzero hmax
    rw [push, if_pos hmax, if_pos hzero]
  · intro st sampleRate _ h
    rw [configure, if_neg (not_lt.mpr h)]
  · intro st sampleRate h0 h10
    rw [configure, if_neg (not_lt.mpr (by rw [MAX_SAMPLE_RATE]; linarith))]
    show (⌊sampleRate * (1 / 10)⌋).toNat = 0
    have : ⌊sampleRate * (1 / 10)⌋ = 0 := by
      rw [Int.floor_eq_zero_iff]
      constructor
      · positivity
      · linarith
    rw [this]
    rfl

/-- Witness for C10: a push on a zero-size buffer (as produced by
configuring at 5 Hz) panics. -/
theorem c10_witness :
    push { buffer := fun _ => (0 : ℚ), writePos := 0, bufferSize := 0,
           sampleRate := 5 } 1 = none :=
  c10_push_precondition_unenforced.2.1 _ 1 rfl
    (by rw [MAX_BUFFER_SIZE_eq]; norm_num)

/-- C3 counterexample: processing one frame with 0 channels from the
default state does not skip the push — the cursor advances to 1 and the
slot receives the NaN produced by 0.0 * (1.0 / 0.0) — whereas the claim
says the push is skipped entirely (cursor would stay at the original
value 0). -/
theorem c3_counterexample :
    (processFrames 0 [[]] st0R).map (fun s => (s.writePos, s.buffer 0)) =
      some (1, RVal.nan) ∧
    (1 : ℕ) ≠ st0R.writePos := by
  constructor
  · norm_num [processFrames, push, mixFrame, divisionFactor, rmul, st0R,
      MAX_BUFFER_SIZE_eq, Function.update_same]
  · norm_num [st0R]

/-- C3 (amended): for a frame carrying one sample value per channel, the
value pushed is the arithmetic mean sum / N of the channel values when
N >= 1, computed from that frame alone; for N = 0 the push is not
skipped — the code pushes the NaN arising from 0.0 * (1.0 / 0.0) and
advances the cursor all the same. -/
theorem c3_downmix_mean (channelCount : ℕ) (frame : List ℚ) (st : ScopeState RVal)
    (hlen : frame.length = channelCount)
    (hpos : st.writePos < st.bufferSize) (hcap : st.bufferSize ≤ MAX_BUFFER_SIZE) :
    ∃ st', processFrames channelCount [frame] st = some st' ∧
      st'.writePos = (st.writePos + 1) % st.bufferSize ∧
      st'.buffer st.writePos =
        (if channelCount = 0 then RVal.nan
         else RVal.fin (frame.sum / channelCount)) := by
  have hmax : st.writePos < MAX_BUFFER_SIZE := lt_of_lt_of_le hpos hcap
  have hpush : push st (mixFrame channelCount frame) = some
      { st with
        buffer := Function.update st.buffer st.writePos (mixFrame channelCount frame)
        writePos := (st.writePos + 1) % st.bufferSize } := by
    rw [push, if_pos hmax, if_neg (by omega)]
  refine ⟨{ st with
      buffer := Function.update st.buffer st.writePos (mixFrame channelCount frame)
      writePos := (st.writePos + 1) % st.bufferSize }, ?_, rfl, ?_⟩
  · show (push st (mixFrame channelCount frame)).bind
        (fun st2 => processFrames channelCount [] st2) = _
    rw [hpush]
    rfl
  · show Function.update st.buffer st.writePos (mixFrame channelCount frame)
        st.writePos = _
    rw [Function.update_same]
    rcases channelCount with _ | n
    · have hnil : frame = [] := List.eq_nil_of_length_eq_zero hlen
      subst hnil
      simp [mixFrame, divisionFactor, rmul]
    · rw [if_neg (Nat.succ_ne_zero n)]
      simp only [mixFrame, divisionFactor, if_neg (Nat.succ_ne_zero n), rmul,
        mul_one_div]

/-- Witness for C3 (amended): a stereo frame [1, 3] pushes the mean 2. -/
theorem c3_witness :
    ∃ st', processFrames 2 [[1, 3]] st0R = some st' ∧
      st'.writePos = (st0R.writePos + 1) % st0R.bufferSize ∧
      st'.buffer st0R.writePos =
        (if (2 : ℕ) = 0 then RVal.nan
         else RVal.fin (([1, 3] : List ℚ).sum / ((2 : ℕ) : ℚ))) :=
  c3_downmix_mean 2 [1, 3] st0R rfl (by norm_num [st0R])
    (by rw [MAX_BUFFER_SIZE_eq]; norm_num [st0R])

/-- Running pushAll from a state with room for the whole batch: every
push succeeds, the cursor advances by the batch length modulo the
logical size, and the most recent value sits at the last slot written. -/
theorem pushAll_spec {α : Type} (vs : List α) :
    ∀ st : ScopeState α, st.writePos < st.bufferSize →
      st.writePos + vs.length ≤ st.bufferSize →
      st.bufferSize ≤ MAX_BUFFER_SIZE →
      ∃ st', pushAll st vs = some st' ∧
        st'.bufferSize = st.bufferSize ∧
        st'.writePos = (st.writePos + vs.length) % st.bufferSize ∧
        ∀ v, vs.getLast? = some v →
          st'.buffer (st.writePos + vs.length - 1) = v := by
  induction vs with
  | nil =>
    intro st hlt _ _
    exact ⟨st, rfl, rfl, by simpa using (Nat.mod_eq_of_lt hlt).symm, by simp⟩
  | cons v rest ih =>
    intro st hlt hle hcap
    have hmax : st.writePos < MAX_BUFFER_SIZE := lt_of_lt_of_le hlt hcap
    have hpush : push st v = some
        { st with buffer := Function.update st.buffer st.writePos v
                  writePos := (st.writePos + 1) % st.bufferSize } := by
      rw [push, if_pos hmax, if_neg (by omega)]
    rcases rest with _ | ⟨w, ws⟩
    · refine ⟨{ st with buffer := Function.update st.buffer st.writePos v
                        writePos := (st.writePos + 1) % st.bufferSize },
        ?_, rfl, rfl, ?_⟩
      · show (push st v).bind (fun st2 => pushAll st2 []) = _
        rw [hpush]
        rfl
      · intro u hu
        rw [List.getLast?_singleton, Option.some.injEq] at hu
        subst hu
        show Function.update st.buffer st.writePos v (st.writePos + 1 - 1) = v
        simp
    · have hlt2 : st.writePos + 1 < st.bufferSize := by
        simp only [List.length_cons] at hle
        omega
      have hwp2 : ((st.writePos + 1) % st.bufferSize) = st.writePos + 1 :=
        Nat.mod_eq_of_lt hlt2
      obtain ⟨st', hpa, hbs, hwp, hlast⟩ := ih
        { st with buffer := Function.update st.buffer st.writePos v
                  writePos := (st.writePos + 1) % st.bufferSize }
        (by simpa [hwp2] using hlt2)
        (by simp only [hwp2]
            simp only [List.length_cons] at hle ⊢
            omega)
        hcap
      refine ⟨st', ?_, hbs, ?_, ?_⟩
      · show (push st v).bind (fun st2 => pushAll st2 (w :: ws)) = _
        rw [hpush]
        exact hpa
      · rw [hwp]
        simp only [hwp2, List.length_cons]
        congr 1
        omega
      · intro u hu
        rw [List.getLast?_cons_cons] at hu
        have hslot := hlast u hu
        simp only [hwp2] at hslot
        have harith : st.writePos + 1 + (w :: ws).length - 1 =
            st.writePos + (v :: w :: ws).length - 1 := by
          simp only [List.length_cons]
          omega
        rwa [harith] at hslot

/-- For 1 <= k <= n, stepping back one slot from cursor position
k mod n in integer arithmetic lands on slot k - 1. -/
theorem cursor_pred_slot {k n : ℕ} (hk1 : 1 ≤ k) (hkn : k ≤ n) :
    ((((k % n : ℕ) : ℤ) - 1) % (n : ℤ)).toNat = k - 1 := by
  rcases Nat.lt_or_ge k n with h | h
  · rw [Nat.mod_eq_of_lt h,
      Int.emod_eq_of_lt (by omega) (by exact_mod_cast by omega)]
    omega
  · have hkn2 : k = n := le_antisymm hkn h
    subst hkn2
    rw [Nat.mod_self]
    have h1 : ((-1 : ℤ) + (k : ℤ) * 1) % (k : ℤ) = (-1 : ℤ) % (k : ℤ) :=
      Int.add_mul_emod_self_left (-1) (k : ℤ) 1
    have h3 : ((k : ℤ) - 1) % (k : ℤ) = (k : ℤ) - 1 :=
      Int.emod_eq_of_lt (by omega) (by omega)
    have h4 : (-1 : ℤ) % (k : ℤ) = (k : ℤ) - 1 := by
      rw [← h1, show ((-1 : ℤ) + (k : ℤ) * 1) = (k : ℤ) - 1 by ring]
      exact h3
    simp only [Nat.cast_zero]
    rw [show ((0 : ℤ) - 1) = (-1 : ℤ) by ring, h4]
    omega

/-- C4: from a freshly configured buffer (cursor 0) with
1 <= logical_size <= capacity, each push writes at slots[write_cursor]
and then advances write_cursor = (write_cursor + 1) mod logical_size;
after k <= logical_size pushes the cursor equals k mod logical_size, and
the slot at (write_cursor - 1) mod logical_size holds the most recently
pushed value. -/
theorem c4_ring_buffer_invariant {α : Type} (initBuffer : ℕ → α)
    (rate bufferSize : ℕ) (vs : List α)
    (hsz : 1 ≤ bufferSize) (hcap : bufferSize ≤ MAX_BUFFER_SIZE)
    (hk : vs.length ≤ bufferSize) :
    (∀ (st : ScopeState α) (v : α), st.writePos < st.bufferSize →
      st.bufferSize ≤ MAX_BUFFER_SIZE →
      push st v = some
        { st with buffer := Function.update st.buffer st.writePos v
                  writePos := (st.writePos + 1) % st.bufferSize }) ∧
    ∃ st', pushAll (ScopeState.mk initBuffer 0 bufferSize rate) vs = some st' ∧
      st'.writePos = vs.length % bufferSize ∧
      ∀ v, vs.getLast? = some v →
        st'.buffer ((((st'.writePos : ℕ) : ℤ) - 1) % ((bufferSize : ℕ) : ℤ)).toNat
          = v := by
  constructor
  · intro st v hlt hc
    rw [push, if_pos (lt_of_lt_of_le hlt hc), if_neg (by omega)]
  · obtain ⟨st', hpa, _, hwp, hlast⟩ :=
      pushAll_spec vs (ScopeState.mk initBuffer 0 bufferSize rate)
        (by simpa using hsz) (by simpa using hk) hcap
    have hwp2 : st'.writePos = vs.length % bufferSize := by simpa using hwp
    refine ⟨st', hpa, hwp2, ?_⟩
    intro v hv
    have hlen1 : 1 ≤ vs.length := by
      rcases vs with _ | _
      · simp at hv
      · simp
    have hslot := hlast v hv
    rw [hwp2, cursor_pred_slot hlen1 hk]
    simpa using hslot

/-- Witness for C4: pushing [3, 7] into a freshly configured size-2
buffer leaves the cursor at 0 and the last value 7 in slot 1. -/
theorem c4_witness :
    (∀ (st : ScopeState ℚ) (v : ℚ), st.writePos < st.bufferSize →
      st.bufferSize ≤ MAX_BUFFER_SIZE →
      push st v = some
        { st with buffer := Function.update st.buffer st.writePos v
                  writePos := (st.writePos + 1) % st.bufferSize }) ∧
    ∃ st', pushAll (ScopeState.mk (fun _ => (0 : ℚ)) 0 2 44100) [3, 7] = some st' ∧
      st'.writePos = ([3, 7] : List ℚ).length % 2 ∧
      ∀ v, ([3, 7] : List ℚ).getLast? = some v →
        st'.buffer ((((st'.writePos : ℕ) : ℤ) - 1) % (((2 : ℕ) : ℕ) : ℤ)).toNat
          = v :=
  c4_ring_buffer_invariant (fun _ => (0 : ℚ)) 44100 2 [3, 7] (by norm_num)
    (by rw [MAX_BUFFER_SIZE_eq]; norm_num) (by norm_num)

end Scope
